import Mathlib

/-!
Verification of the component-tree / line-drawing core in
`src/components/main_view.rs`.

The Rust source is shallowly embedded below:

* `LineSpacer` and its `Widget::render` implementation become a pure
  function from a rectangle to the ordered list of buffer writes the
  method performs (each write is a grid position together with the glyph
  written there).  `applyWrites` replays such a list against a buffer,
  later writes overwriting earlier ones, exactly as the mutable
  `Buffer` does in Rust.
* The `debug_assert!` at the top of `render` becomes the boolean
  `LineSpacer.assert_condition`.
* `MainView` keeps its `id` and its two child components; the children
  (`InputField`, `RadioArray`) live in other modules, so their states are
  type parameters and their `draw` methods are explicit function
  arguments of `MainView.draw`.  `MainView.draw` returns the outcome of
  the child-draw sequence (`ok`, propagated `err`, or `panicked` for the
  `.unwrap()` on the record-name field) together with the list of child
  draw invocations it performed, each recording the `focused_id`
  argument passed down.
* Grid coordinates are `Nat`; `u16::saturating_sub` is `Nat`
  subtraction, which is saturating by definition.
-/

/-- Mirrors `ratatui::layout::Direction`. -/
inductive Direction where
  | Horizontal
  | Vertical
deriving DecidableEq, Repr

/-- Mirrors `ratatui::layout::Rect`: `(x, y, width, height)` in cells. -/
structure Rect where
  x : Nat
  y : Nat
  width : Nat
  height : Nat
deriving DecidableEq, Repr

/-- A grid position `(x, y)`, as in `ratatui::layout::Position`. -/
abbrev Position := Nat × Nat

/-- Mirrors `Rect::as_position`: the rectangle's origin. -/
def Rect.as_position (a : Rect) : Position := (a.x, a.y)

/-- Mirrors the `LineSpacer` struct of `main_view.rs` (fields
`direction, begin, inner, end, merged`; `end` is `end_` here because it
is a Lean keyword). -/
structure LineSpacer where
  direction : Direction
  begin : String
  inner : String
  end_ : String
  merged : String
deriving DecidableEq, Repr

/-- One buffer write performed by a widget: target cell and glyph. -/
abbrev Write := Position × String

/-- Shallow embedding of `<LineSpacer as Widget>::render` (main_view.rs
lines 39-72): the ordered list of `buf[..].set_symbol(..)` calls the
method performs on `area`.  The early return on a degenerate area, the
merged-glyph single-cell case, and the begin/end/inner main case with its
`(start+1)..end` loop are translated branch for branch. -/
def LineSpacer.render (self : LineSpacer) (area : Rect) : List Write :=
  if area.width = 0 ∨ area.height = 0 then
    []
  else if area.width ≤ 1 ∧ area.height ≤ 1 then
    [(area.as_position, self.merged)]
  else
    (area.as_position, self.begin) ::
      match self.direction with
      | .Horizontal =>
          ((area.x + area.width - 1, area.y), self.end_) ::
            (List.range (area.width - 2)).map
              (fun i => ((area.x + 1 + i, area.y), self.inner))
      | .Vertical =>
          ((area.x, area.y + area.height - 1), self.end_) ::
            (List.range (area.height - 2)).map
              (fun i => ((area.x, area.y + 1 + i), self.inner))

/-- The condition of the `debug_assert!` at the top of
`LineSpacer::render` (main_view.rs lines 34-37):
`(direction == Horizontal || width == 1) && (direction == Vertical || height == 1)`. -/
def LineSpacer.assert_condition (self : LineSpacer) (area : Rect) : Bool :=
  (self.direction == Direction.Horizontal || area.width == 1)
    && (self.direction == Direction.Vertical || area.height == 1)

/-- The terminal cell buffer, reduced to what the core needs: a glyph at
every grid position. -/
abbrev Buffer := Position → String

/-- Mutating `buf[pos].set_symbol(glyph)`, as a functional update. -/
def applyWrite (buf : Buffer) (w : Write) : Buffer :=
  fun p => if p = w.1 then w.2 else buf p

/-- Replay a list of writes against a buffer, in order; a later write to
the same cell overwrites an earlier one, as in the mutable Rust buffer. -/
def applyWrites (ws : List Write) (buf : Buffer) : Buffer :=
  ws.foldl applyWrite buf

/-- An all-blank buffer, used for concrete scenarios. -/
def emptyBuffer : Buffer := fun _ => " "

/-- The extent of a rectangle along the line axis of a direction. -/
def lineExtent (d : Direction) (a : Rect) : Nat :=
  match d with
  | .Horizontal => a.width
  | .Vertical => a.height

/-- The extent of a rectangle perpendicular to the line axis. -/
def perpExtent (d : Direction) (a : Rect) : Nat :=
  match d with
  | .Horizontal => a.height
  | .Vertical => a.width

/-- The last cell of a rectangle along the line axis (the `end_position`
of `LineSpacer::render`). -/
def lastPos (d : Direction) (a : Rect) : Position :=
  match d with
  | .Horizontal => (a.x + a.width - 1, a.y)
  | .Vertical => (a.x, a.y + a.height - 1)

/-- Whether a position lies strictly between the first and last cell of
the rectangle along the line axis (on the line itself). -/
def strictlyBetween (d : Direction) (a : Rect) (p : Position) : Bool :=
  match d with
  | .Horizontal => decide (p.2 = a.y ∧ a.x < p.1 ∧ p.1 < a.x + a.width - 1)
  | .Vertical => decide (p.1 = a.x ∧ a.y < p.2 ∧ p.2 < a.y + a.height - 1)

/-- The `LineSpacer` of the spec's end-to-end scenario: axis Horizontal,
glyphs `('+', '-', '+', 'o')`. -/
def plusSpacer : LineSpacer :=
  { direction := .Horizontal, begin := "+", inner := "-", end_ := "+", merged := "o" }

/-! ### Helper lemmas about replaying writes -/

theorem applyWrites_cons (w : Write) (ws : List Write) (buf : Buffer) :
    applyWrites (w :: ws) buf = applyWrites ws (applyWrite buf w) := rfl

theorem applyWrites_untouched (ws : List Write) (buf : Buffer) (p : Position)
    (h : ∀ w ∈ ws, w.1 ≠ p) : applyWrites ws buf p = buf p := by
  induction ws generalizing buf with
  | nil => rfl
  | cons w t ih =>
      rw [applyWrites_cons, ih _ (fun w' hw' => h w' (List.mem_cons_of_mem _ hw'))]
      have hne : p ≠ w.1 := fun hp => h w (List.mem_cons_self _ _) hp.symm
      simp [applyWrite, hne]

theorem applyWrites_const (ws : List Write) (buf : Buffer) (p : Position) (g : String)
    (hg : ∀ w ∈ ws, w.2 = g) (hp : ∃ w ∈ ws, w.1 = p) :
    applyWrites ws buf p = g := by
  induction ws generalizing buf with
  | nil => simp at hp
  | cons w t ih =>
      rw [applyWrites_cons]
      by_cases hc : ∃ w' ∈ t, w'.1 = p
      · exact ih _ (fun w' hw' => hg w' (List.mem_cons_of_mem _ hw')) hc
      · have hww : w.1 = p := by
          rcases hp with ⟨w', hw', hp'⟩
          rcases List.mem_cons.mp hw' with h1 | h2
          · rw [← h1]; exact hp'
          · exact absurd ⟨w', h2, hp'⟩ hc
        have hnone : ∀ w' ∈ t, w'.1 ≠ p := fun w' hw' hne => hc ⟨w', hw', hne⟩
        rw [applyWrites_untouched t _ p hnone]
        have : applyWrite buf w p = w.2 := by simp [applyWrite, hww]
        rw [this]
        exact hg w (List.mem_cons_self _ _)

/-- On a degenerate rectangle, `render` performs no write (the early
return at main_view.rs line 41). -/
theorem LineSpacer.render_degenerate (s : LineSpacer) (a : Rect)
    (h : a.width = 0 ∨ a.height = 0) : s.render a = [] := by
  unfold LineSpacer.render
  rw [if_pos h]

/-- Unfolding of `render` in the main (horizontal) branch. -/
theorem LineSpacer.render_horizontal (s : LineSpacer) (a : Rect)
    (hd : s.direction = .Horizontal) (hw : 1 ≤ a.width) (hh : 1 ≤ a.height)
    (hmain : ¬(a.width ≤ 1 ∧ a.height ≤ 1)) :
    s.render a =
      (a.as_position, s.begin) ::
        ((a.x + a.width - 1, a.y), s.end_) ::
          (List.range (a.width - 2)).map
            (fun i => ((a.x + 1 + i, a.y), s.inner)) := by
  unfold LineSpacer.render
  rw [if_neg (by omega), if_neg (by omega), hd]

/-- Unfolding of `render` in the main (vertical) branch. -/
theorem LineSpacer.render_vertical (s : LineSpacer) (a : Rect)
    (hd : s.direction = .Vertical) (hw : 1 ≤ a.width) (hh : 1 ≤ a.height)
    (hmain : ¬(a.width ≤ 1 ∧ a.height ≤ 1)) :
    s.render a =
      (a.as_position, s.begin) ::
        ((a.x, a.y + a.height - 1), s.end_) ::
          (List.range (a.height - 2)).map
            (fun i => ((a.x, a.y + 1 + i), s.inner)) := by
  unfold LineSpacer.render
  rw [if_neg (by omega), if_neg (by omega), hd]

/-! ### Claims about `LineSpacer::render` -/

/-- C2: on every rectangle with `width = 0` or `height = 0`, and for
either axis, `LineSpacer::render` writes zero cells. -/
theorem LineSpacer.render_degenerate_writes_nothing (s : LineSpacer) (a : Rect)
    (h : a.width = 0 ∨ a.height = 0) : s.render a = [] :=
  s.render_degenerate a h

/-- Witness for C2 at a concrete degenerate rectangle. -/
theorem LineSpacer.render_degenerate_writes_nothing_witness :
    plusSpacer.render (Rect.mk 3 4 0 7) = [] :=
  LineSpacer.render_degenerate_writes_nothing plusSpacer (Rect.mk 3 4 0 7) (Or.inl rfl)

/-- C3 counterexample: the rectangle `(0,0,0,0)` has `width ≤ 1` and
`height ≤ 1`, yet `render` writes zero cells on it, not exactly one. -/
theorem LineSpacer.render_single_cell_counterexample :
    (Rect.mk 0 0 0 0).width ≤ 1 ∧ (Rect.mk 0 0 0 0).height ≤ 1 ∧
      (plusSpacer.render (Rect.mk 0 0 0 0)).length = 0 := by
  refine ⟨by decide, by decide, ?_⟩
  rw [LineSpacer.render_degenerate plusSpacer _ (Or.inl rfl)]
  rfl

/-- C3 amended: on every rectangle with `width = 1` and `height = 1`,
`render` writes exactly one cell, the merged glyph, at the rectangle's
origin, and nothing else. -/
theorem LineSpacer.render_single_cell (s : LineSpacer) (a : Rect)
    (hw : a.width = 1) (hh : a.height = 1) :
    s.render a = [(a.as_position, s.merged)] ∧ (s.render a).length = 1 := by
  have hr : s.render a = [(a.as_position, s.merged)] := by
    unfold LineSpacer.render
    rw [if_neg (by omega), if_pos (by omega)]
  exact ⟨hr, by rw [hr]; rfl⟩

/-- Witness for amended C3: the spec's `(0,0,1,1)` scenario writes only
the merged glyph at the origin. -/
theorem LineSpacer.render_single_cell_witness :
    plusSpacer.render (Rect.mk 0 0 1 1) = [((0, 0), "o")] ∧
      (plusSpacer.render (Rect.mk 0 0 1 1)).length = 1 :=
  LineSpacer.render_single_cell plusSpacer (Rect.mk 0 0 1 1) rfl rfl

/-- C4 counterexample: the rectangle `(0,0,5,0)` is degenerate
(`height = 0`), yet the `debug_assert!` condition of `render` is false
on it for a horizontal spacer: the precondition check does not admit
every degenerate rectangle. -/
theorem LineSpacer.assert_degenerate_counterexample :
    ((Rect.mk 0 0 5 0).width = 0 ∨ (Rect.mk 0 0 5 0).height = 0) ∧
      plusSpacer.assert_condition (Rect.mk 0 0 5 0) = false := by
  decide

/-- C4 amended: on every degenerate rectangle `render` still writes zero
cells (so with assertions disabled no failure occurs), but the
`debug_assert!` condition holds exactly when the rectangle's extent
perpendicular to the spacer's axis is 1 — a degenerate rectangle with
perpendicular extent ≠ 1 fails the check. -/
theorem LineSpacer.assert_admits_degenerate_iff (s : LineSpacer) (a : Rect)
    (h : a.width = 0 ∨ a.height = 0) :
    s.render a = [] ∧
      (s.assert_condition a = true ↔ perpExtent s.direction a = 1) := by
  refine ⟨s.render_degenerate a h, ?_⟩
  obtain ⟨d, sb, si, se, sm⟩ := s
  cases d <;> simp [LineSpacer.assert_condition, perpExtent]

/-- Witness for amended C4 at a concrete degenerate rectangle with
perpendicular extent 1. -/
theorem LineSpacer.assert_admits_degenerate_iff_witness :
    plusSpacer.render (Rect.mk 0 0 0 1) = [] ∧
      (plusSpacer.assert_condition (Rect.mk 0 0 0 1) = true ↔
        perpExtent plusSpacer.direction (Rect.mk 0 0 0 1) = 1) :=
  LineSpacer.assert_admits_degenerate_iff plusSpacer (Rect.mk 0 0 0 1) (Or.inl rfl)

/-- C8: every cell written by `LineSpacer::render` lies inside the
target rectangle: `area.x ≤ px < area.x + area.width` and
`area.y ≤ py < area.y + area.height`. -/
theorem LineSpacer.render_in_bounds (s : LineSpacer) (a : Rect)
    (p : Position) (g : String) (h : (p, g) ∈ s.render a) :
    a.x ≤ p.1 ∧ p.1 < a.x + a.width ∧ a.y ≤ p.2 ∧ p.2 < a.y + a.height := by
  by_cases hdeg : a.width = 0 ∨ a.height = 0
  · rw [s.render_degenerate a hdeg] at h
    simp at h
  · push_neg at hdeg
    obtain ⟨hw1, hh1⟩ := hdeg
    by_cases hsingle : a.width ≤ 1 ∧ a.height ≤ 1
    · have hr : s.render a = [(a.as_position, s.merged)] := by
        unfold LineSpacer.render
        rw [if_neg (by omega), if_pos hsingle]
      rw [hr] at h
      simp [Rect.as_position] at h
      obtain ⟨hp, -⟩ := h
      subst hp
      constructor <;> [rfl; constructor]
      · omega
      · exact ⟨le_refl _, by omega⟩
    · obtain ⟨d, sb, si, se, sm⟩ := s
      cases d
      · rw [LineSpacer.render_horizontal _ a rfl (by omega) (by omega) hsingle] at h
        simp [Rect.as_position, List.mem_map, Prod.ext_iff] at h
        rcases h with ⟨hx, hy, -⟩ | ⟨hx, hy, -⟩ | ⟨i, hi, hx, hy, -⟩ <;> omega
      · rw [LineSpacer.render_vertical _ a rfl (by omega) (by omega) hsingle] at h
        simp [Rect.as_position, List.mem_map, Prod.ext_iff] at h
        rcases h with ⟨hx, hy, -⟩ | ⟨hx, hy, -⟩ | ⟨i, hi, hx, hy, -⟩ <;> omega

/-- Witness for C8 at a concrete write of the `(0,0,5,1)` scenario. -/
theorem LineSpacer.render_in_bounds_witness :
    (Rect.mk 0 0 5 1).x ≤ (0, 0).1 ∧ (0, 0).1 < (Rect.mk 0 0 5 1).x + (Rect.mk 0 0 5 1).width ∧
      (Rect.mk 0 0 5 1).y ≤ (0, 0).2 ∧ (0, 0).2 < (Rect.mk 0 0 5 1).y + (Rect.mk 0 0 5 1).height :=
  LineSpacer.render_in_bounds plusSpacer (Rect.mk 0 0 5 1) (0, 0) "+" (by decide)

/-! ### `MainView` and its `Component` implementation -/

/-- A process-unique component identifier (`ComponentId`), modelled as a
natural number; the claims only compare identifiers for equality. -/
abbrev ComponentId := Nat

/-- Mirrors the `MainView` struct (main_view.rs lines 90-95): its id and
its two child components.  The child component types (`InputField` and
`RadioArray<Encoding>`) are defined in other modules and are opaque to
the claims, so they are type parameters. -/
structure MainView (InputFieldT RadioArrayT : Type) where
  id : ComponentId
  record_name_field : InputFieldT
  encoding_radio_array : RadioArrayT

/-- Mirrors `Component::update` for `MainView` (lines 125-127): the body
is `Ok(None)` and `&mut self` is left untouched, so the embedding
returns the unchanged state together with the result. -/
def MainView.update {I R Msg Act ε : Type} (self : MainView I R) (_message : Msg) :
    MainView I R × Except ε (Option Act) :=
  (self, Except.ok none)

/-- Mirrors `Component::handle_event` for `MainView` (lines 129-131). -/
def MainView.handle_event {I R Ev Act ε : Type} (self : MainView I R) (_event : Ev) :
    MainView I R × Except ε (Option Act) :=
  (self, Except.ok none)

/-- Mirrors `Component::is_focusable` for `MainView` (lines 133-135). -/
def MainView.is_focusable {I R : Type} (_self : MainView I R) : Bool :=
  false

/-- The two children of `MainView`, in the order `MainView::draw` calls
their `draw` methods. -/
inductive Child where
  | recordNameField
  | encodingRadioArray
deriving DecidableEq, Repr

/-- The result of a child component's `draw` call: `Ok(())` or `Err(e)`. -/
inductive DrawResult (ε : Type) where
  | ok
  | err (e : ε)
deriving DecidableEq, Repr

/-- How a call to `MainView::draw` ends: a normal `Ok(())` return, an
error return, or a panic (from `.unwrap()` on a child's failed draw). -/
inductive DrawOutcome (ε : Type) where
  | ok
  | err (e : ε)
  | panicked (e : ε)
deriving DecidableEq, Repr

/-- One child draw invocation performed by `MainView::draw`, recording
which child was drawn and the `focused_id` argument passed to it. -/
structure ChildCall where
  child : Child
  focused_id : ComponentId
deriving DecidableEq, Repr

/-- Shallow embedding of the fallible part of `MainView::draw`
(main_view.rs lines 137-249).  The `frame.render_widget` calls on the
spacers, blocks and labels are infallible buffer writes that take no
`focused_id`, so the embedding keeps the child-draw sequence that
decides the return value: `self.record_name_field.draw(frame, ..,
focused_id).unwrap()` — a panic on `Err` — followed by
`self.encoding_radio_array.draw(frame, .., focused_id)?` — an error
return on `Err`.  The children's `draw` methods live in other modules
and are passed in as functions of the child state and the `focused_id`
argument.  The embedding returns the outcome together with the list of
child draw invocations performed, in order. -/
def MainView.draw {I R ε : Type} (self : MainView I R) (focused_id : ComponentId)
    (record_name_field_draw : I → ComponentId → DrawResult ε)
    (encoding_radio_array_draw : R → ComponentId → DrawResult ε) :
    DrawOutcome ε × List ChildCall :=
  match record_name_field_draw self.record_name_field focused_id with
  | .err e => (.panicked e, [⟨.recordNameField, focused_id⟩])
  | .ok =>
      match encoding_radio_array_draw self.encoding_radio_array focused_id with
      | .err e =>
          (.err e, [⟨.recordNameField, focused_id⟩, ⟨.encodingRadioArray, focused_id⟩])
      | .ok =>
          (.ok, [⟨.recordNameField, focused_id⟩, ⟨.encodingRadioArray, focused_id⟩])

/-- An accessibility role; `MainView` builds an `accesskit::Role::Group`
node. -/
inductive Role where
  | Group
deriving DecidableEq, Repr

/-- An accessibility-tree node: a role and an ordered list of child
nodes — the part of `accesskit::Node` the claims are about. -/
inductive AccessibilityNode where
  | mk (role : Role) (children : List AccessibilityNode)

/-- The children list of an accessibility node. -/
def AccessibilityNode.children : AccessibilityNode → List AccessibilityNode
  | .mk _ c => c

/-- The role of an accessibility node. -/
def AccessibilityNode.role : AccessibilityNode → Role
  | .mk r _ => r

/-- Mirrors `MainView::get_accessibility_node` (lines 273-277): build a
`Role::Group` node, set its children to the empty vector, return `Ok`. -/
def MainView.get_accessibility_node {I R ε : Type} (_self : MainView I R) :
    Except ε AccessibilityNode :=
  Except.ok (AccessibilityNode.mk Role.Group [])

/-- Mirrors the `area_content_title` rectangle built in `MainView::draw`
(lines 189-194) from the upper band `area_top` and its middle column
`area_metadata`; `u16::saturating_sub` is `Nat` subtraction, which is
saturating by definition. -/
def MainView.area_content_title (area_top area_metadata : Rect) : Rect :=
  { x := area_metadata.x
    y := area_top.y + area_top.height - 1
    width := area_top.width - area_metadata.x
    height := 1 }

/-! ### Claims about `MainView` -/

/-- C5 counterexample: when the record-name-field child's draw returns an
error, `MainView::draw` panics on the `.unwrap()` at line 232 instead of
returning that error, so the error is not propagated as the return
value. -/
theorem MainView.draw_unwrap_counterexample :
    ((MainView.mk 0 () () : MainView Unit Unit).draw 0
        (fun _ _ => DrawResult.err "E") (fun _ _ => DrawResult.ok)).1
      = DrawOutcome.panicked "E" ∧
    ((MainView.mk 0 () () : MainView Unit Unit).draw 0
        (fun _ _ => DrawResult.err "E") (fun _ _ => DrawResult.ok)).1
      ≠ DrawOutcome.err "E" :=
  ⟨rfl, by decide⟩

/-- C5 amended: an error from the encoding radio array child's draw (the
`?` at line 235) is propagated upward unchanged as the return value of
`MainView::draw` when the record-name-field draw succeeds, but an error
from the record-name-field child's draw causes a panic via `.unwrap()`
(line 232) rather than an error return. -/
theorem MainView.draw_error_propagation {I R ε : Type} (self : MainView I R)
    (focused_id : ComponentId)
    (record_name_field_draw : I → ComponentId → DrawResult ε)
    (encoding_radio_array_draw : R → ComponentId → DrawResult ε) :
    (∀ e, record_name_field_draw self.record_name_field focused_id = DrawResult.ok →
      encoding_radio_array_draw self.encoding_radio_array focused_id = DrawResult.err e →
      (self.draw focused_id record_name_field_draw encoding_radio_array_draw).1
        = DrawOutcome.err e) ∧
    (∀ e, record_name_field_draw self.record_name_field focused_id = DrawResult.err e →
      (self.draw focused_id record_name_field_draw encoding_radio_array_draw).1
        = DrawOutcome.panicked e) := by
  constructor
  · intro e h1 h2
    simp [MainView.draw, h1, h2]
  · intro e h1
    simp [MainView.draw, h1]

/-- Witness for amended C5: both error paths at concrete inputs. -/
theorem MainView.draw_error_propagation_witness :
    ((MainView.mk 0 () () : MainView Unit Unit).draw 0
        (fun _ _ => DrawResult.ok) (fun _ _ => DrawResult.err "b")).1
      = DrawOutcome.err "b" ∧
    ((MainView.mk 0 () () : MainView Unit Unit).draw 0
        (fun _ _ => DrawResult.err "a") (fun _ _ => DrawResult.ok)).1
      = DrawOutcome.panicked "a" :=
  ⟨(MainView.draw_error_propagation (MainView.mk 0 () ()) 0
      (fun _ _ => DrawResult.ok) (fun _ _ => DrawResult.err "b")).1 "b" rfl rfl,
   (MainView.draw_error_propagation (MainView.mk 0 () ()) 0
      (fun _ _ => DrawResult.err "a") (fun _ _ => DrawResult.ok)).2 "a" rfl⟩

/-- C6: every child draw invocation performed by `MainView::draw`
receives a `focused_id` argument identical to the `focused_id` that
`MainView::draw` itself received. -/
theorem MainView.draw_focused_id_identity {I R ε : Type} (self : MainView I R)
    (focused_id : ComponentId)
    (record_name_field_draw : I → ComponentId → DrawResult ε)
    (encoding_radio_array_draw : R → ComponentId → DrawResult ε)
    (c : ChildCall)
    (hc : c ∈ (self.draw focused_id record_name_field_draw
      encoding_radio_array_draw).2) :
    c.focused_id = focused_id := by
  unfold MainView.draw at hc
  cases h1 : record_name_field_draw self.record_name_field focused_id with
  | err e =>
      rw [h1] at hc
      simp at hc
      rw [hc]
  | ok =>
      rw [h1] at hc
      cases h2 : encoding_radio_array_draw self.encoding_radio_array focused_id with
      | err e =>
          rw [h2] at hc
          simp at hc
          rcases hc with rfl | rfl <;> rfl
      | ok =>
          rw [h2] at hc
          simp at hc
          rcases hc with rfl | rfl <;> rfl

/-- Witness for C6 at a concrete component tree and focus value. -/
theorem MainView.draw_focused_id_identity_witness :
    ChildCall.mk Child.recordNameField 5 ∈
      ((MainView.mk 0 () () : MainView Unit Unit).draw 5
        (fun _ _ => (DrawResult.ok : DrawResult Unit)) (fun _ _ => DrawResult.ok)).2 ∧
    (ChildCall.mk Child.recordNameField 5).focused_id = 5 :=
  ⟨by decide,
   MainView.draw_focused_id_identity (MainView.mk 0 () ()) 5
     (fun _ _ => (DrawResult.ok : DrawResult Unit)) (fun _ _ => DrawResult.ok)
     (ChildCall.mk Child.recordNameField 5) (by decide)⟩

/-- C7 counterexample: `MainView::get_accessibility_node` sets the
children of its node to the empty vector (line 275), so the children
list does not contain the accessibility nodes of the two child
components — it has length 0, not 2. -/
theorem MainView.accessibility_children_counterexample :
    ((MainView.mk 0 () () : MainView Unit Unit).get_accessibility_node
        : Except Unit AccessibilityNode)
      = Except.ok (AccessibilityNode.mk Role.Group []) ∧
    (AccessibilityNode.mk Role.Group []).children.length ≠ 2 :=
  ⟨rfl, by simp [AccessibilityNode.children]⟩

/-- C7 amended: `MainView::get_accessibility_node` returns `Ok` with
exactly one accessibility node, a `Role::Group` node whose children list
is empty (a placeholder), not the nodes of its two child components. -/
theorem MainView.accessibility_node_placeholder {I R ε : Type} (self : MainView I R) :
    (self.get_accessibility_node : Except ε AccessibilityNode)
      = Except.ok (AccessibilityNode.mk Role.Group []) ∧
    (AccessibilityNode.mk Role.Group []).children.length = 0 :=
  ⟨rfl, rfl⟩

/-- C9: the content-title rectangle's y-coordinate equals
`(area_top.y + area_top.height).saturating_sub(1)`: it is
`area_top.y + area_top.height - 1` when that quantity is nonnegative and
`0` otherwise, so the computation never underflows — in particular it is
`0` when `area_top` is degenerate with height 0 at y 0. -/
theorem MainView.content_title_y_saturates (area_top area_metadata : Rect) :
    (MainView.area_content_title area_top area_metadata).y =
      (if 1 ≤ area_top.y + area_top.height then area_top.y + area_top.height - 1 else 0) ∧
    (MainView.area_content_title (Rect.mk area_top.x 0 area_top.width 0)
      area_metadata).y = 0 := by
  constructor
  · simp only [MainView.area_content_title]
    split <;> omega
  · rfl

/-- C10: `MainView::update` returns `Ok(None)` for every message,
`MainView::handle_event` returns `Ok(None)` for every event, neither
call modifies the `MainView` state, and `MainView::is_focusable` is
always `false`. -/
theorem MainView.update_handle_event_inert {I R Msg Ev Act ε : Type}
    (self : MainView I R) (message : Msg) (event : Ev) :
    (self.update message : MainView I R × Except ε (Option Act))
      = (self, Except.ok none) ∧
    (self.handle_event event : MainView I R × Except ε (Option Act))
      = (self, Except.ok none) ∧
    self.is_focusable = false :=
  ⟨rfl, rfl, rfl⟩

/-! ### The main-case behaviour of `render` (claim C1) -/

theorem LineSpacer.render_props_horizontal (s : LineSpacer) (a : Rect) (buf : Buffer)
    (hd : s.direction = .Horizontal) (hw : 2 ≤ a.width) (hh : a.height = 1) :
    applyWrites (s.render a) buf a.as_position = s.begin ∧
    applyWrites (s.render a) buf (a.x + a.width - 1, a.y) = s.end_ ∧
    (∀ p : Position, strictlyBetween .Horizontal a p = true →
      applyWrites (s.render a) buf p = s.inner) ∧
    ((s.render a).filter (fun w => strictlyBetween .Horizontal a w.1)).length
      = a.width - 2 := by
  have hr := s.render_horizontal a hd (by omega) (by omega) (by omega)
  refine ⟨?_, ?_, ?_, ?_⟩
  · rw [hr, applyWrites_cons, applyWrites_cons,
        applyWrites_untouched _ _ _ (by
          intro w hw'
          rcases List.mem_map.mp hw' with ⟨i, hi, rfl⟩
          intro hq
          simp only [Rect.as_position, Prod.mk.injEq] at hq
          omega)]
    have hne : a.x ≠ a.x + a.width - 1 := by omega
    simp [applyWrite, Rect.as_position, hne]
  · rw [hr, applyWrites_cons, applyWrites_cons,
        applyWrites_untouched _ _ _ (by
          intro w hw'
          rcases List.mem_map.mp hw' with ⟨i, hi, rfl⟩
          simp only [List.mem_range] at hi
          intro hq
          simp only [Prod.mk.injEq] at hq
          omega)]
    simp [applyWrite]
  · intro p hp
    simp only [strictlyBetween, decide_eq_true_eq] at hp
    obtain ⟨hp1, hp2, hp3⟩ := hp
    rw [hr, applyWrites_cons, applyWrites_cons]
    apply applyWrites_const
    · intro w hw'
      rcases List.mem_map.mp hw' with ⟨i, hi, rfl⟩
      rfl
    · refine ⟨((a.x + 1 + (p.1 - a.x - 1), a.y), s.inner),
        List.mem_map.mpr ⟨p.1 - a.x - 1, List.mem_range.mpr (by omega), rfl⟩, ?_⟩
      show (a.x + 1 + (p.1 - a.x - 1), a.y) = p
      have h1 : a.x + 1 + (p.1 - a.x - 1) = p.1 := by omega
      rw [h1, ← hp1]
  · rw [hr,
        List.filter_cons_of_neg (by
          show ¬(strictlyBetween Direction.Horizontal a (a.x, a.y) = true)
          simp only [strictlyBetween, decide_eq_true_eq]
          rintro ⟨h1, h2, h3⟩
          omega),
        List.filter_cons_of_neg (by
          show ¬(strictlyBetween Direction.Horizontal a (a.x + a.width - 1, a.y) = true)
          simp only [strictlyBetween, decide_eq_true_eq]
          rintro ⟨h1, h2, h3⟩
          omega),
        List.filter_eq_self.mpr (by
          intro w hw'
          rcases List.mem_map.mp hw' with ⟨i, hi, rfl⟩
          simp only [List.mem_range] at hi
          show strictlyBetween Direction.Horizontal a (a.x + 1 + i, a.y) = true
          simp only [strictlyBetween, decide_eq_true_eq]
          exact ⟨by trivial, by omega, by omega⟩),
        List.length_map, List.length_range]

theorem LineSpacer.render_props_vertical (s : LineSpacer) (a : Rect) (buf : Buffer)
    (hd : s.direction = .Vertical) (hw : a.width = 1) (hh : 2 ≤ a.height) :
    applyWrites (s.render a) buf a.as_position = s.begin ∧
    applyWrites (s.render a) buf (a.x, a.y + a.height - 1) = s.end_ ∧
    (∀ p : Position, strictlyBetween .Vertical a p = true →
      applyWrites (s.render a) buf p = s.inner) ∧
    ((s.render a).filter (fun w => strictlyBetween .Vertical a w.1)).length
      = a.height - 2 := by
  have hr := s.render_vertical a hd (by omega) (by omega) (by omega)
  refine ⟨?_, ?_, ?_, ?_⟩
  · rw [hr, applyWrites_cons, applyWrites_cons,
        applyWrites_untouched _ _ _ (by
          intro w hw'
          rcases List.mem_map.mp hw' with ⟨i, hi, rfl⟩
          intro hq
          simp only [Rect.as_position, Prod.mk.injEq] at hq
          omega)]
    have hne : a.y ≠ a.y + a.height - 1 := by omega
    simp [applyWrite, Rect.as_position, hne]
  · rw [hr, applyWrites_cons, applyWrites_cons,
        applyWrites_untouched _ _ _ (by
          intro w hw'
          rcases List.mem_map.mp hw' with ⟨i, hi, rfl⟩
          simp only [List.mem_range] at hi
          intro hq
          simp only [Prod.mk.injEq] at hq
          omega)]
    simp [applyWrite]
  · intro p hp
    simp only [strictlyBetween, decide_eq_true_eq] at hp
    obtain ⟨hp1, hp2, hp3⟩ := hp
    rw [hr, applyWrites_cons, applyWrites_cons]
    apply applyWrites_const
    · intro w hw'
      rcases List.mem_map.mp hw' with ⟨i, hi, rfl⟩
      rfl
    · refine ⟨((a.x, a.y + 1 + (p.2 - a.y - 1)), s.inner),
        List.mem_map.mpr ⟨p.2 - a.y - 1, List.mem_range.mpr (by omega), rfl⟩, ?_⟩
      show (a.x, a.y + 1 + (p.2 - a.y - 1)) = p
      have h1 : a.y + 1 + (p.2 - a.y - 1) = p.2 := by omega
      rw [h1, ← hp1]
  · rw [hr,
        List.filter_cons_of_neg (by
          show ¬(strictlyBetween Direction.Vertical a (a.x, a.y) = true)
          simp only [strictlyBetween, decide_eq_true_eq]
          rintro ⟨h1, h2, h3⟩
          omega),
        List.filter_cons_of_neg (by
          show ¬(strictlyBetween Direction.Vertical a (a.x, a.y + a.height - 1) = true)
          simp only [strictlyBetween, decide_eq_true_eq]
          rintro ⟨h1, h2, h3⟩
          omega),
        List.filter_eq_self.mpr (by
          intro w hw'
          rcases List.mem_map.mp hw' with ⟨i, hi, rfl⟩
          simp only [List.mem_range] at hi
          show strictlyBetween Direction.Vertical a (a.x, a.y + 1 + i) = true
          simp only [strictlyBetween, decide_eq_true_eq]
          exact ⟨by trivial, by omega, by omega⟩),
        List.length_map, List.length_range]

/-- C1: on every rectangle whose extent along the spacer's line axis is
at least 2 and whose perpendicular extent is 1, `LineSpacer::render`
leaves the begin glyph at the first cell along the axis, the end glyph
at the last cell, and the inner glyph at every cell strictly between
them, and the number of inner-glyph (strictly interior) writes equals
`extent - 2`; in particular, with axis Horizontal and glyphs
`('+','-','+','o')` on area `(0,0,5,1)` it writes `+` at x = 0, `-` at
x = 1, 2, 3, and `+` at x = 4. -/
theorem LineSpacer.render_caps_and_inner (s : LineSpacer) (a : Rect) (buf : Buffer)
    (hext : 2 ≤ lineExtent s.direction a) (hperp : perpExtent s.direction a = 1) :
    applyWrites (s.render a) buf a.as_position = s.begin ∧
    applyWrites (s.render a) buf (lastPos s.direction a) = s.end_ ∧
    (∀ p : Position, strictlyBetween s.direction a p = true →
      applyWrites (s.render a) buf p = s.inner) ∧
    ((s.render a).filter (fun w => strictlyBetween s.direction a w.1)).length
      = lineExtent s.direction a - 2 ∧
    applyWrites (plusSpacer.render (Rect.mk 0 0 5 1)) emptyBuffer (0, 0) = "+" ∧
    applyWrites (plusSpacer.render (Rect.mk 0 0 5 1)) emptyBuffer (1, 0) = "-" ∧
    applyWrites (plusSpacer.render (Rect.mk 0 0 5 1)) emptyBuffer (2, 0) = "-" ∧
    applyWrites (plusSpacer.render (Rect.mk 0 0 5 1)) emptyBuffer (3, 0) = "-" ∧
    applyWrites (plusSpacer.render (Rect.mk 0 0 5 1)) emptyBuffer (4, 0) = "+" := by
  obtain ⟨d, sb, si, se, sm⟩ := s
  cases d with
  | Horizontal =>
      obtain ⟨c1, c2, c3, c4⟩ :=
        LineSpacer.render_props_horizontal (LineSpacer.mk .Horizontal sb si se sm)
          a buf rfl hext hperp
      exact ⟨c1, c2, c3, c4, by decide, by decide, by decide, by decide, by decide⟩
  | Vertical =>
      obtain ⟨c1, c2, c3, c4⟩ :=
        LineSpacer.render_props_vertical (LineSpacer.mk .Vertical sb si se sm)
          a buf rfl hperp hext
      exact ⟨c1, c2, c3, c4, by decide, by decide, by decide, by decide, by decide⟩

/-- Witness for C1: the spec's `(0,0,5,1)` horizontal scenario. -/
theorem LineSpacer.render_caps_and_inner_witness :
    applyWrites (plusSpacer.render (Rect.mk 0 0 5 1)) emptyBuffer
        (Rect.mk 0 0 5 1).as_position = plusSpacer.begin ∧
    applyWrites (plusSpacer.render (Rect.mk 0 0 5 1)) emptyBuffer
        (lastPos plusSpacer.direction (Rect.mk 0 0 5 1)) = plusSpacer.end_ ∧
    (∀ p : Position, strictlyBetween plusSpacer.direction (Rect.mk 0 0 5 1) p = true →
      applyWrites (plusSpacer.render (Rect.mk 0 0 5 1)) emptyBuffer p = plusSpacer.inner) ∧
    ((plusSpacer.render (Rect.mk 0 0 5 1)).filter
        (fun w => strictlyBetween plusSpacer.direction (Rect.mk 0 0 5 1) w.1)).length
      = lineExtent plusSpacer.direction (Rect.mk 0 0 5 1) - 2 ∧
    applyWrites (plusSpacer.render (Rect.mk 0 0 5 1)) emptyBuffer (0, 0) = "+" ∧
    applyWrites (plusSpacer.render (Rect.mk 0 0 5 1)) emptyBuffer (1, 0) = "-" ∧
    applyWrites (plusSpacer.render (Rect.mk 0 0 5 1)) emptyBuffer (2, 0) = "-" ∧
    applyWrites (plusSpacer.render (Rect.mk 0 0 5 1)) emptyBuffer (3, 0) = "-" ∧
    applyWrites (plusSpacer.render (Rect.mk 0 0 5 1)) emptyBuffer (4, 0) = "+" :=
  LineSpacer.render_caps_and_inner plusSpacer (Rect.mk 0 0 5 1) emptyBuffer
    (by decide) (by decide)
